import Mathlib

/-!
Verification of the CSDashboard wildlife-translocation dashboard.

The JavaScript sources are shallowly embedded: strings are processed as
`List Char`, JavaScript numbers produced by `parseFloat` are modelled as
`Option ℚ` (`none` standing for `NaN`), and the fallible routines return
the same sentinel values as the source.  Components whose implementation
lives only in the backend (absent from the repository snapshot) are
modelled from the specification and marked as such in their doc comments.
-/

namespace CSDashboard

/-- ASCII whitespace, the characters trimmed by the embedded `trim`. -/
def isWspChar (c : Char) : Bool :=
  c = ' ' || c = Char.ofNat 9 || c = Char.ofNat 10 || c = Char.ofNat 13

/-- Embedding of JavaScript `String.prototype.trim` on character lists. -/
def trimL (l : List Char) : List Char :=
  ((l.dropWhile isWspChar).reverse.dropWhile isWspChar).reverse

/-- Embedding of JavaScript `toLowerCase` restricted to ASCII letters. -/
def lowerL (l : List Char) : List Char :=
  l.map Char.toLower

/-- Helper for `splitComma`. -/
def splitCommaAux : List Char → List Char → List (List Char)
  | [], acc => [acc.reverse]
  | c :: rest, acc =>
      if c = ',' then acc.reverse :: splitCommaAux rest []
      else splitCommaAux rest (c :: acc)

/-- Embedding of JavaScript `String.prototype.split(",")`:
`"a,,b"` becomes `["a", "", "b"]` and `""` becomes `[""]`. -/
def splitComma (l : List Char) : List (List Char) :=
  splitCommaAux l []

/-- Decimal digit test. -/
def isDDigit (c : Char) : Bool :=
  '0' ≤ c && c ≤ '9'

/-- Value of a run of decimal digits. -/
def digitsToNat (ds : List Char) : Nat :=
  ds.foldl (fun a c => a * 10 + (c.toNat - 48)) 0

/-- Exponent part of a JavaScript float literal, as read by `parseFloat`
after the mantissa: an optional `e`/`E`, an optional sign and a digit run.
A malformed exponent is ignored (exponent `0`), as in JavaScript. -/
def jsExponentOf (r2 : List Char) : Int :=
  match r2 with
  | [] => 0
  | c :: r =>
      if c = 'e' || c = 'E' then
        match r with
        | [] => 0
        | d :: rr =>
            if d = '-' then
              (if (rr.takeWhile isDDigit).isEmpty then 0
               else -(digitsToNat (rr.takeWhile isDDigit) : Int))
            else if d = '+' then
              (if (rr.takeWhile isDDigit).isEmpty then 0
               else (digitsToNat (rr.takeWhile isDDigit) : Int))
            else
              (if (r.takeWhile isDDigit).isEmpty then 0
               else (digitsToNat (r.takeWhile isDDigit) : Int))
      else 0

/-- Embedding of JavaScript `parseFloat` on character lists.  Skips
leading whitespace, reads an optional sign, an integer part, an optional
fractional part and an optional exponent, and ignores any trailing
characters.  `none` models `NaN` (no parsable number prefix); decimal
values are represented exactly as rationals. -/
def jsParseFloatChars (l0 : List Char) : Option ℚ :=
  let l1 := l0.dropWhile isWspChar
  let sgn : Int := match l1 with
    | c :: _ => if c = '-' then -1 else 1
    | [] => 1
  let l2 : List Char := match l1 with
    | c :: r => if c = '-' || c = '+' then r else l1
    | [] => []
  let ip := l2.takeWhile isDDigit
  let r1 := l2.dropWhile isDDigit
  let fp : List Char := match r1 with
    | c :: r => if c = '.' then r.takeWhile isDDigit else []
    | [] => []
  let r2 : List Char := match r1 with
    | c :: r => if c = '.' then r.dropWhile isDDigit else r1
    | [] => []
  if ip.isEmpty && fp.isEmpty then none
  else
    let e : Int := jsExponentOf r2 - fp.length
    let mant : Int := sgn * (digitsToNat ip * 10 ^ fp.length + digitsToNat fp)
    some (if 0 ≤ e then mkRat (mant * 10 ^ e.toNat) 1 else mkRat mant (10 ^ (-e).toNat))

/-- Embedding of JavaScript `parseInt` (radix 10): optional whitespace,
optional sign, then a digit run; `none` models `NaN`. -/
def jsParseIntChars (l0 : List Char) : Option Int :=
  let l1 := l0.dropWhile isWspChar
  let sgn : Int := match l1 with
    | c :: _ => if c = '-' then -1 else 1
    | [] => 1
  let l2 : List Char := match l1 with
    | c :: r => if c = '-' || c = '+' then r else l1
    | [] => []
  let ds := l2.takeWhile isDDigit
  if ds.isEmpty then none else some (sgn * (digitsToNat ds : Int))

/-- Characters removed by the coordinate parsers' `replace(/[°'"]/g, "")`:
the degree sign (176), the apostrophe (39) and the double quote (34). -/
def isDegQuote (c : Char) : Bool :=
  c = Char.ofNat 176 || c = Char.ofNat 39 || c = Char.ofNat 34

/-- Removal of degree and quote punctuation. -/
def stripDegQuote (l : List Char) : List Char :=
  l.filter (fun c => !isDegQuote c)

/-- A JavaScript number: `none` models `NaN`. -/
abbrev JSNum := Option ℚ

/-- Embedding of the enhanced `parseCoordinates` of the map component
(`src/unnamed/part_000`, lines 250-279): empty input, the literal
`"0, 0"`, fewer than two comma parts, `NaN` components or components
outside `[-90, 90] × [-180, 180]` all give the `[0, 0]` sentinel;
otherwise the two parsed components are returned. -/
def parseCoordinates (coordString : String) : JSNum × JSNum :=
  if coordString = "" ∨ coordString = "0, 0" then (some 0, some 0)
  else
    let cleanCoords := trimL (stripDegQuote coordString.data)
    let coords := splitComma cleanCoords
    if 2 ≤ coords.length then
      match jsParseFloatChars (trimL (coords.getD 0 [])),
            jsParseFloatChars (trimL (coords.getD 1 [])) with
      | some lat, some lng =>
          if -90 ≤ lat ∧ lat ≤ 90 ∧ -180 ≤ lng ∧ lng ≤ 180 then (some lat, some lng)
          else (some 0, some 0)
      | _, _ => (some 0, some 0)
    else (some 0, some 0)

/-- Embedding of the legacy `parseCoordinates` of
`src/frontend/src/App.js`, lines 1992-2003: same stripping and
splitting, but the two `parseFloat` results are returned with no `NaN`
check and no range validation. -/
def parseCoordinatesLegacy (coordString : String) : JSNum × JSNum :=
  if coordString = "" then (some 0, some 0)
  else
    let coords := splitComma (stripDegQuote coordString.data)
    if 2 ≤ coords.length then
      (jsParseFloatChars (trimL (coords.getD 0 [])),
       jsParseFloatChars (trimL (coords.getD 1 [])))
    else (some 0, some 0)

/-- Test deciding whether a coordinate string passes every check of the
enhanced parser: at least two comma parts, both components parse, and
both lie in the valid latitude/longitude ranges. -/
def coordParseOk (s : String) : Bool :=
  decide (2 ≤ (splitComma (trimL (stripDegQuote s.data))).length) &&
    match jsParseFloatChars (trimL ((splitComma (trimL (stripDegQuote s.data))).getD 0 [])),
          jsParseFloatChars (trimL ((splitComma (trimL (stripDegQuote s.data))).getD 1 [])) with
    | some lat, some lng => decide (-90 ≤ lat ∧ lat ≤ 90 ∧ -180 ≤ lng ∧ lng ≤ 180)
    | _, _ => false

/-- Sub-record of a translocation record holding one location
(`{name, coordinates, country}` in §3 of the data model). -/
structure AreaInfo where
  name : String
  coordinates : String
  country : String
deriving DecidableEq, Repr

/-- One wildlife translocation event, as stored and as consumed by the
frontend (`TranslocationRecord` in §3). -/
structure Translocation where
  id : String
  project_title : String
  year : Int
  species : String
  number_of_animals : Nat
  source_area : AreaInfo
  recipient_area : AreaInfo
  transport : String
  special_project : String
  additional_info : String
deriving DecidableEq, Repr

/-- The four filter inputs of the dashboard; the empty string is the
JavaScript falsy value meaning "no constraint". -/
structure Filters where
  species : String
  year : String
  transport : String
  special_project : String
deriving DecidableEq, Repr

/-- The filter state with every field empty (no constraints). -/
def noFilters : Filters :=
  { species := "", year := "", transport := "", special_project := "" }

/-- Year test of the Filter Engine: `t.year === parseInt(filters.year)`.
`parseInt` yielding `NaN` matches no record. -/
def yearMatches (t : Translocation) (y : String) : Bool :=
  match jsParseIntChars y.data with
  | some n => t.year == n
  | none => false

/-- Embedding of `applyFilters` from `src/frontend/src/App.js`,
lines 1256-1280: each non-empty filter narrows the list in turn with an
exact-match `Array.prototype.filter`. -/
def applyFilters (filters : Filters) (translocations : List Translocation) :
    List Translocation :=
  let f1 := if filters.species = "" then translocations
    else translocations.filter (fun t => t.species == filters.species)
  let f2 := if filters.year = "" then f1
    else f1.filter (fun t => yearMatches t filters.year)
  let f3 := if filters.transport = "" then f2
    else f2.filter (fun t => t.transport == filters.transport)
  if filters.special_project = "" then f3
  else f3.filter (fun t => t.special_project == filters.special_project)

/-- Conjunction of the four filter conditions: a record passes exactly
when every provided (non-empty) filter matches it exactly; an empty
filter value imposes no constraint. -/
def matchesAllFilters (filters : Filters) (t : Translocation) : Bool :=
  (if filters.special_project = "" then true
   else t.special_project == filters.special_project) &&
    ((if filters.transport = "" then true else t.transport == filters.transport) &&
      ((if filters.year = "" then true else yearMatches t filters.year) &&
        (if filters.species = "" then true else t.species == filters.species)))

/-- A drawable element produced by the map component: a circle marker
with a radius, or a connecting polyline. -/
inductive MapElem where
  | circle (center : JSNum × JSNum) (radius : Nat)
  | line (src dst : JSNum × JSNum)
deriving DecidableEq, Repr

/-- Test for circle markers. -/
def isCircleElem : MapElem → Bool
  | .circle _ _ => true
  | _ => false

/-- Test for polylines. -/
def isLineElem : MapElem → Bool
  | .line _ _ => true
  | _ => false

/-- Embedding of the per-record body of the marker-update loop of
`MapComponent` (`src/unnamed/part_000`, lines 248-418): both coordinate
strings are parsed; if either endpoint is `(0, 0)` the record is skipped
entirely (no markers, no line, no bounds entries — the second, redundant
both-zero guard of lines 296-298 is kept for fidelity); otherwise a
radius-10 source circle marker, a radius-7 destination circle marker and
one connecting polyline are drawn and both endpoints are pushed onto the
bounds list. -/
def renderTranslocation (t : Translocation) :
    List MapElem × List (JSNum × JSNum) :=
  if ((parseCoordinates t.source_area.coordinates).1 = some 0 ∧
      (parseCoordinates t.source_area.coordinates).2 = some 0) ∨
     ((parseCoordinates t.recipient_area.coordinates).1 = some 0 ∧
      (parseCoordinates t.recipient_area.coordinates).2 = some 0) then ([], [])
  else if ((parseCoordinates t.source_area.coordinates).1 = some 0 ∧
           (parseCoordinates t.source_area.coordinates).2 = some 0) ∧
          ((parseCoordinates t.recipient_area.coordinates).1 = some 0 ∧
           (parseCoordinates t.recipient_area.coordinates).2 = some 0) then ([], [])
  else
    ([MapElem.circle (parseCoordinates t.source_area.coordinates) 10,
      MapElem.circle (parseCoordinates t.recipient_area.coordinates) 7,
      MapElem.line (parseCoordinates t.source_area.coordinates)
        (parseCoordinates t.recipient_area.coordinates)],
     [parseCoordinates t.source_area.coordinates,
      parseCoordinates t.recipient_area.coordinates])

/-- The whole marker-update pass over the filtered records, accumulating
layers and bounds entries in order. -/
def renderMap (ts : List Translocation) :
    List MapElem × List (JSNum × JSNum) :=
  ts.foldl (fun acc t =>
    (acc.1 ++ (renderTranslocation t).1, acc.2 ++ (renderTranslocation t).2))
    ([], [])

/-- A record whose two coordinate strings are both valid. -/
def mapSampleValid : Translocation :=
  { id := "1", project_title := "Peace Parks", year := 2022,
    species := "Elephant", number_of_animals := 25,
    source_area := ⟨"Source", "-24.9947, 32.5969", "Mozambique"⟩,
    recipient_area := ⟨"Dest", "-22.5, 31.2", "Mozambique"⟩,
    transport := "Road", special_project := "", additional_info := "" }

/-- A record with a valid source but an unparseable recipient
coordinate string. -/
def mapSampleInvalid : Translocation :=
  { id := "2", project_title := "Peace Parks", year := 2022,
    species := "Elephant", number_of_animals := 25,
    source_area := ⟨"Source", "-24.9947, 32.5969", "Mozambique"⟩,
    recipient_area := ⟨"Dest", "not a place", "Mozambique"⟩,
    transport := "Road", special_project := "", additional_info := "" }

/-- Modelled from the spec: the backend Species Categorizer is not part
of the repository snapshot (only its frontend consumers are).  The
flagship species that keep their own category (§4.3: "e.g. Elephant,
Black Rhino, White Rhino", confirmed by the dashboard's five statistics
categories). -/
def flagshipSpecies : List String :=
  ["Elephant", "Black Rhino", "White Rhino"]

/-- Modelled from the spec: the fixed enumerated set of recognized
plains-game species (§4.3).  The spec does not list the set
exhaustively; these are the non-flagship species offered by the
dashboard's species filter and legend. -/
def plainsGameSpecies : List String :=
  ["Lion", "Buffalo", "Hippo", "Giraffe", "Zebra", "Kudu", "Sable",
   "Impala", "Waterbuck"]

/-- Species names mentioned in a raw species string: the trimmed,
lowercased string split on commas, with empty tokens dropped (the spec's
"mixed consignment" form, e.g. `"Impala, Kudu, Zebra"`). -/
def speciesTokens (s : String) : List (List Char) :=
  ((splitComma (lowerL (trimL s.data))).map trimL).filter (fun tk => !tk.isEmpty)

/-- Modelled from the spec: the Species Categorizer (§4.3), a pure
function of the raw species string and the fixed category tables,
evaluated in the spec's priority order — flagship exact match (case
insensitive) → plains-game membership of every named species → fallback
"Other".  Returns the category label together with the breakdown note
written into `additional_info` in the "Other" case (the original
species text); no note otherwise. -/
def categorizeSpecies (s : String) : String × Option String :=
  match flagshipSpecies.find? (fun f => lowerL f.data == lowerL (trimL s.data)) with
  | some f => (f, none)
  | none =>
    if speciesTokens s ≠ [] ∧
        (speciesTokens s).all
          (fun tk => plainsGameSpecies.any (fun p => lowerL p.data == tk)) = true then
      ("Plains Game Species", none)
    else ("Other", some s)

/-- Prefix test on character lists. -/
def isPrefixB : List Char → List Char → Bool
  | [], _ => true
  | _ :: _, [] => false
  | a :: as, b :: bs => a == b && isPrefixB as bs

/-- Substring test on character lists (`needle` occurs inside `hay`). -/
def containsB (needle : List Char) : List Char → Bool
  | [] => isPrefixB needle []
  | c :: rest => isPrefixB needle (c :: rest) || containsB needle rest

/-- The logical fields of the import schema (§4.2 of the spec; the
required four match the upload panel of `App.js`, lines 1723-1728). -/
inductive ImportField where
  | projectTitle | yearF | speciesF | numberF
  | srcName | srcCoords | srcCountry
  | rcpName | rcpCoords | rcpCountry
  | transportF | specialProjectF | additionalInfoF
deriving DecidableEq, Fintype, Repr

/-- All logical fields, in schema order. -/
def ImportField.all : List ImportField :=
  [.projectTitle, .yearF, .speciesF, .numberF,
   .srcName, .srcCoords, .srcCountry,
   .rcpName, .rcpCoords, .rcpCountry,
   .transportF, .specialProjectF, .additionalInfoF]

/-- Required fields: Project Title, Year, Species, Number (the
"Required" row of the upload help panel). -/
def ImportField.required : ImportField → Bool
  | .projectTitle | .yearF | .speciesF | .numberF => true
  | _ => false

/-- Modelled from the spec: the declarative header-matching table of
§4.2/§9 — for each logical field, the lowercase substrings an uploaded
header must contain to match it (e.g. a header containing "source" and
"name" maps to the source-area name). -/
def ImportField.keywords : ImportField → List (List Char)
  | .projectTitle => [("project").data, ("title").data]
  | .yearF => [("year").data]
  | .speciesF => [("species").data]
  | .numberF => [("number").data]
  | .srcName => [("source").data, ("name").data]
  | .srcCoords => [("source").data, ("ordinate").data]
  | .srcCountry => [("source").data, ("country").data]
  | .rcpName => [("recipient").data, ("name").data]
  | .rcpCoords => [("recipient").data, ("ordinate").data]
  | .rcpCountry => [("recipient").data, ("country").data]
  | .transportF => [("transport").data]
  | .specialProjectF => [("special").data]
  | .additionalInfoF => [("additional").data]

/-- Human-readable field name used in import diagnostics. -/
def ImportField.displayName : ImportField → String
  | .projectTitle => "Project Title"
  | .yearF => "Year"
  | .speciesF => "Species"
  | .numberF => "Number"
  | .srcName => "Source Area: Name"
  | .srcCoords => "Source Area: Co-Ordinates"
  | .srcCountry => "Source Area: Country"
  | .rcpName => "Recipient Area: Name"
  | .rcpCoords => "Recipient Area: Co-Ordinates"
  | .rcpCountry => "Recipient Area: Country"
  | .transportF => "Transport"
  | .specialProjectF => "Special Project"
  | .additionalInfoF => "Additional Info"

/-- The canonical header row, as displayed by the upload help panel. -/
def canonicalHeaders : List String :=
  ["Project Title", "Year", "Species", "Number",
   "Source Area: Name", "Source Area: Co-Ordinates", "Source Area: Country",
   "Recipient Area: Name", "Recipient Area: Co-Ordinates",
   "Recipient Area: Country", "Transport", "Special Project",
   "Additional Info"]

/-- The canonical header matched by each logical field. -/
def canonicalHeaderOf : ImportField → String := ImportField.displayName

/-- Match of a field's keywords against an already-lowercased header. -/
def matchesLower (f : ImportField) (l : List Char) : Bool :=
  f.keywords.all (fun k => containsB k l)

/-- Case-insensitive header match: the lowercased header contains every
keyword of the field. -/
def headerMatchesField (f : ImportField) (h : String) : Bool :=
  matchesLower f (lowerL h.data)

/-- First index at which the predicate holds, counting from `i`. -/
def findColAux (p : String → Bool) : List String → Nat → Option Nat
  | [], _ => none
  | h :: t, i => if p h then some i else findColAux p t (i + 1)

/-- Column index assigned to a logical field: the first header that
matches it, if any. -/
def findColumn (headers : List String) (f : ImportField) : Option Nat :=
  findColAux (headerMatchesField f) headers 0

/-- Modelled from the spec: the Column Normalizer (§4.2) — the
backend's import endpoint is absent from the repository snapshot.  Each
logical field is matched against the header list case-insensitively; if some
required field has no matching header the whole import fails fast with
a diagnostic naming that field, otherwise the field-to-column-index
mapping is returned and unmatched optional fields stay absent. -/
def missingRequiredColumn (headers : List String) : Option ImportField :=
  ImportField.all.find? (fun f => f.required && (findColumn headers f).isNone)

/-- Column normalization outcome: a diagnostic naming the first
unmatched required field, or the field-to-column-index mapping. -/
def normalizeColumns (headers : List String) :
    Except String (ImportField → Option Nat) :=
  match missingRequiredColumn headers with
  | some f => Except.error ("Missing required column: " ++ f.displayName)
  | none => Except.ok (fun f => findColumn headers f)

/-- Cell value of a row at a logical field: the cell at the mapped
column index, or the empty string when the field is unmatched or the
row is short (absent value). -/
def cellAt (m : ImportField → Option Nat) (row : List String)
    (f : ImportField) : String :=
  match m f with
  | some i => row.getD i ""
  | none => ""

/-- A value counting as empty for required-field validation. -/
def blankCell (s : String) : Bool :=
  (trimL s.data).isEmpty

/-- First required field whose cell is blank in the row, if any. -/
def rowMissingRequired (m : ImportField → Option Nat) (row : List String) :
    Option ImportField :=
  ImportField.all.find? (fun f => f.required && blankCell (cellAt m row f))

/-- Modelled from the spec: per-row validation of the Import Pipeline
(§4.4) — required fields must be non-empty and `year` /
`number_of_animals` must parse as the correct numeric types.  Returns
`none` when the row is valid, or a human-readable reason.  Coordinate
cells are deliberately not consulted (bad coordinates are a data-quality
warning, not an error). -/
def rowError (m : ImportField → Option Nat) (row : List String) :
    Option String :=
  match rowMissingRequired m row with
  | some f => some ("Missing required field: " ++ f.displayName)
  | none =>
    match jsParseIntChars (cellAt m row ImportField.yearF).data with
    | none => some "Invalid year"
    | some _ =>
      match jsParseIntChars (cellAt m row ImportField.numberF).data with
      | none => some "Invalid number of animals"
      | some n => if n ≤ 0 then some "Invalid number of animals" else none

/-- Modelled from the spec: candidate record built from a valid row
(§4.4) — cell values at the normalized column indices, the Species
Categorizer applied to the species cell (its breakdown note, when
present, stored into `additional_info`), and the raw coordinate strings
stored as-is whether or not they parse. -/
def buildRecord (m : ImportField → Option Nat) (row : List String) :
    Translocation :=
  { id := ""
  , project_title := cellAt m row ImportField.projectTitle
  , year := (jsParseIntChars (cellAt m row ImportField.yearF).data).getD 0
  , species := (categorizeSpecies (cellAt m row ImportField.speciesF)).1
  , number_of_animals :=
      ((jsParseIntChars (cellAt m row ImportField.numberF).data).getD 1).toNat
  , source_area :=
      { name := cellAt m row ImportField.srcName
      , coordinates := cellAt m row ImportField.srcCoords
      , country := cellAt m row ImportField.srcCountry }
  , recipient_area :=
      { name := cellAt m row ImportField.rcpName
      , coordinates := cellAt m row ImportField.rcpCoords
      , country := cellAt m row ImportField.rcpCountry }
  , transport := cellAt m row ImportField.transportF
  , special_project := cellAt m row ImportField.specialProjectF
  , additional_info :=
      match (categorizeSpecies (cellAt m row ImportField.speciesF)).2 with
      | some note => note
      | none => cellAt m row ImportField.additionalInfoF }

/-- Result of one bulk import (`ImportOutcome` in §3): totals, the
per-row failures with their reasons, and the candidate records handed
to the store. -/
structure ImportOutcome where
  total_rows_processed : Nat
  successful_imports : Nat
  failures : List (Nat × String)
  inserted : List Translocation
deriving DecidableEq, Repr

/-- The outcome before any row is processed. -/
def emptyOutcome : ImportOutcome :=
  { total_rows_processed := 0, successful_imports := 0,
    failures := [], inserted := [] }

/-- Modelled from the spec: processing of one data row (§4.4) — a row
failing validation is recorded as a per-row failure and does not abort
the import; a valid row's candidate record is appended to the batch. -/
def importStep (m : ImportField → Option Nat) (acc : ImportOutcome)
    (row : List String) : ImportOutcome :=
  match rowError m row with
  | some reason =>
      { acc with total_rows_processed := acc.total_rows_processed + 1,
                 failures := acc.failures ++ [(acc.total_rows_processed, reason)] }
  | none =>
      { acc with total_rows_processed := acc.total_rows_processed + 1,
                 successful_imports := acc.successful_imports + 1,
                 inserted := acc.inserted ++ [buildRecord m row] }

/-- Row-by-row processing of a whole batch. -/
def processRows (m : ImportField → Option Nat) (rows : List (List String)) :
    ImportOutcome :=
  rows.foldl (importStep m) emptyOutcome

/-- Modelled from the spec: the Import Pipeline (§4.4) — the Column
Normalizer runs once on the header row; an unmatched required column
fails the whole operation fast, before any row is processed; otherwise
every data row is processed and the outcome summarizes totals. -/
def importRows (headers : List String) (rows : List (List String)) :
    Except String ImportOutcome :=
  match normalizeColumns headers with
  | Except.error e => Except.error e
  | Except.ok m => Except.ok (processRows m rows)

/-- One category's line of the statistics payload. -/
structure SpeciesStat where
  total_animals : Nat
  total_translocations : Nat
deriving DecidableEq, Repr

/-- Association lookup in a statistics entry list. -/
def lookupStat : List (String × SpeciesStat) → String → Option SpeciesStat
  | [], _ => none
  | e :: rest, k => if e.1 = k then some e.2 else lookupStat rest k

/-- Add one record's animal count to its category's entry, appending a
fresh entry when the category is new (entries keep first-seen order,
the insertion order of the JSON object the backend builds). -/
def bumpStat : List (String × SpeciesStat) → String → Nat →
    List (String × SpeciesStat)
  | [], key, n => [(key, { total_animals := n, total_translocations := 1 })]
  | (k, st) :: rest, key, n =>
      if k = key then
        (k, { total_animals := st.total_animals + n,
              total_translocations := st.total_translocations + 1 }) :: rest
      else (k, st) :: bumpStat rest key n

/-- Modelled from the spec: the Stats Aggregator (§4.5) — the backend
statistics endpoint is absent from the repository snapshot.  Records
are grouped by their stored category key (the `species` field, which
the import stores post-categorization; the spec allows either stored
or re-derived categories), summing `number_of_animals` and counting
events per category. -/
def statsAggregate (records : List Translocation) :
    List (String × SpeciesStat) :=
  records.foldl (fun acc r => bumpStat acc r.species r.number_of_animals) []

/-- Total animals the aggregator should report for category `k`. -/
def animalsFor (records : List Translocation) (k : String) : Nat :=
  ((records.filter (fun r => r.species == k)).map
    (fun r => r.number_of_animals)).sum

/-- Number of translocation events in category `k`. -/
def eventsFor (records : List Translocation) (k : String) : Nat :=
  (records.filter (fun r => r.species == k)).length

/-- One step of the stable descending insertion sort: the entry goes in
front of the first entry whose `total_animals` does not exceed its own,
so earlier entries win ties. -/
def insertStatDesc (e : String × SpeciesStat) :
    List (String × SpeciesStat) → List (String × SpeciesStat)
  | [] => [e]
  | x :: xs =>
      if x.2.total_animals ≤ e.2.total_animals then e :: x :: xs
      else x :: insertStatDesc e xs

/-- Embedding of the `StatsPanel` sort (`src/frontend/src/App.js`,
line 1115): JavaScript's stable `Array.prototype.sort` with comparator
`(a, b) => b.total_animals - a.total_animals`, i.e. the unique stable
reordering that is descending in `total_animals` — realized here as a
stable insertion sort. -/
def sortStatsEntries : List (String × SpeciesStat) →
    List (String × SpeciesStat)
  | [] => []
  | x :: xs => insertStatDesc x (sortStatsEntries xs)

/-- Lexicographic comparison of character lists (`true` when the first
argument is not greater). -/
def lexLeB : List Char → List Char → Bool
  | [], _ => true
  | _ :: _, [] => false
  | a :: as, b :: bs => if a = b then lexLeB as bs else decide (a < b)

/-- The ordering C8 asserts, written from the claim's words: adjacent
entries have strictly descending `total_animals`, or equal
`total_animals` with category names in ascending order. -/
def orderedByAnimalsThenName : List (String × SpeciesStat) → Bool
  | [] => true
  | [_] => true
  | a :: b :: rest =>
      (b.2.total_animals < a.2.total_animals ||
        (b.2.total_animals == a.2.total_animals && lexLeB a.1.data b.1.data)) &&
      orderedByAnimalsThenName (b :: rest)

/-- Header row identical to the canonical one except that the required
"Species" column is missing. -/
def headersMissingSpecies : List String :=
  ["Project Title", "Year", "Number",
   "Source Area: Name", "Source Area: Co-Ordinates", "Source Area: Country",
   "Recipient Area: Name", "Recipient Area: Co-Ordinates",
   "Recipient Area: Country", "Transport", "Special Project",
   "Additional Info"]

/-- Header row missing only the optional "Special Project" and
"Additional Info" columns. -/
def headersNoOptional : List String :=
  ["Project Title", "Year", "Species", "Number",
   "Source Area: Name", "Source Area: Co-Ordinates", "Source Area: Country",
   "Recipient Area: Name", "Recipient Area: Co-Ordinates",
   "Recipient Area: Country", "Transport"]

/-- The canonical header row permuted (first two columns swapped). -/
def headersSwapped : List String :=
  ["Year", "Project Title", "Species", "Number",
   "Source Area: Name", "Source Area: Co-Ordinates", "Source Area: Country",
   "Recipient Area: Name", "Recipient Area: Co-Ordinates",
   "Recipient Area: Country", "Transport", "Special Project",
   "Additional Info"]

/-- A reordered, case-varied header row. -/
def headersShuffled : List String :=
  ["SPECIES", "year", "PROJECT title", "number",
   "recipient area: name", "Source Area: NAME", "source area: co-ordinates",
   "Source Area: Country", "Recipient Area: CO-ORDINATES",
   "recipient area: country", "TRANSPORT", "special PROJECT",
   "ADDITIONAL info"]

/-- A complete, valid data row whose source coordinate string is
unparseable garbage. -/
def rowBadCoords : List String :=
  ["Rewilding Zinave", "2022", "Elephant", "25",
   "Source Reserve", "not a place", "Mozambique",
   "Zinave NP", "-22.5, 31.2", "Mozambique", "Road", "", ""]

/-- Three data rows for the canonical headers, the second of which has
a blank required `Species` cell (end-to-end scenario A). -/
def scenarioARows : List (List String) :=
  [["Rewilding Zinave", "2022", "Elephant", "25",
    "Source Reserve", "-24.9947, 32.5969", "Mozambique",
    "Zinave NP", "-22.5, 31.2", "Mozambique", "Road", "", ""],
   ["Rewilding Zinave", "2022", "", "10",
    "Source Reserve", "-24.9947, 32.5969", "Mozambique",
    "Zinave NP", "-22.5, 31.2", "Mozambique", "Road", "", ""],
   ["Rewilding Zinave", "2023", "Kudu", "40",
    "Source Reserve", "-24.9947, 32.5969", "Mozambique",
    "Zinave NP", "-22.5, 31.2", "Mozambique", "Air", "", ""]]

/-- Two stored records in first-seen order Elephant, Black Rhino, with
equal animal totals. -/
def tiedRecords : List Translocation :=
  [{ id := "a", project_title := "P1", year := 2022, species := "Elephant",
     number_of_animals := 5,
     source_area := ⟨"S", "", "MZ"⟩, recipient_area := ⟨"D", "", "MZ"⟩,
     transport := "Road", special_project := "", additional_info := "" },
   { id := "b", project_title := "P2", year := 2023, species := "Black Rhino",
     number_of_animals := 5,
     source_area := ⟨"S", "", "MZ"⟩, recipient_area := ⟨"D", "", "MZ"⟩,
     transport := "Air", special_project := "", additional_info := "" }]

/-! Helper lemmas about the coordinate parsers. -/

/-- Whenever the validity test fails, the enhanced parser produces the
`[0, 0]` sentinel. -/
theorem coord_invalid_sentinel (s : String) (h : coordParseOk s = false) :
    parseCoordinates s = (some 0, some 0) := by
  by_cases hs : s = "" ∨ s = "0, 0"
  · rcases hs with rfl | rfl
    · simp [parseCoordinates]
    · exact absurd h (by decide)
  · unfold parseCoordinates
    rw [if_neg hs]
    simp only []
    unfold coordParseOk at h
    by_cases hlen : 2 ≤ (splitComma (trimL (stripDegQuote s.data))).length
    · rw [if_pos hlen]
      rw [decide_eq_true hlen, Bool.true_and] at h
      rcases h0 : jsParseFloatChars
          (trimL ((splitComma (trimL (stripDegQuote s.data))).getD 0 [])) with _ | la
      · rcases h1 : jsParseFloatChars
            (trimL ((splitComma (trimL (stripDegQuote s.data))).getD 1 [])) with _ | ln <;> rfl
      · rcases h1 : jsParseFloatChars
            (trimL ((splitComma (trimL (stripDegQuote s.data))).getD 1 [])) with _ | ln
        · rfl
        · rw [h0, h1] at h
          exact if_neg (of_decide_eq_false h)
    · rw [if_neg hlen]

/-- Whenever the validity test succeeds, the enhanced parser returns the
two parsed components unchanged. -/
theorem coord_valid_exact (s : String) (la ln : ℚ)
    (hparts : 2 ≤ (splitComma (trimL (stripDegQuote s.data))).length)
    (hla : jsParseFloatChars
      (trimL ((splitComma (trimL (stripDegQuote s.data))).getD 0 [])) = some la)
    (hln : jsParseFloatChars
      (trimL ((splitComma (trimL (stripDegQuote s.data))).getD 1 [])) = some ln)
    (hrange : -90 ≤ la ∧ la ≤ 90 ∧ -180 ≤ ln ∧ ln ≤ 180) :
    parseCoordinates s = (some la, some ln) := by
  by_cases hs : s = "" ∨ s = "0, 0"
  · rcases hs with rfl | rfl
    · exact absurd hparts (by decide)
    · have h0 : jsParseFloatChars
          (trimL ((splitComma (trimL (stripDegQuote ("0, 0").data))).getD 0 [])) =
            some 0 := by decide
      have h1 : jsParseFloatChars
          (trimL ((splitComma (trimL (stripDegQuote ("0, 0").data))).getD 1 [])) =
            some 0 := by decide
      rw [h0] at hla
      rw [h1] at hln
      have hla0 : la = 0 := (Option.some_injective _ hla).symm
      have hln0 : ln = 0 := (Option.some_injective _ hln).symm
      rw [hla0, hln0]
      rfl
  · unfold parseCoordinates
    rw [if_neg hs]
    simp only []
    rw [if_pos hparts, hla, hln]
    simp only []
    exact if_pos hrange

/-! Claim theorems for the Coordinate Parser. -/

/-- C1: for every input string of the form `"lat, lng"` whose two
comma-separated components (after stripping degree/quote punctuation and
trimming whitespace) parse as numbers with `lat ∈ [-90, 90]` and
`lng ∈ [-180, 180]`, the Coordinate Parser `parseCoordinates` returns
exactly that numeric pair. -/
theorem claim_C1_parseCoordinates_valid_pair (s : String) (la ln : ℚ)
    (hparts : 2 ≤ (splitComma (trimL (stripDegQuote s.data))).length)
    (hla : jsParseFloatChars
      (trimL ((splitComma (trimL (stripDegQuote s.data))).getD 0 [])) = some la)
    (hln : jsParseFloatChars
      (trimL ((splitComma (trimL (stripDegQuote s.data))).getD 1 [])) = some ln)
    (hrange : -90 ≤ la ∧ la ≤ 90 ∧ -180 ≤ ln ∧ ln ≤ 180) :
    parseCoordinates s = (some la, some ln) :=
  coord_valid_exact s la ln hparts hla hln hrange

/-- Witness for C1: the end-to-end scenario string
`"-24.9947, 32.5969"` parses to exactly `(-24.9947, 32.5969)`, and the
punctuated, whitespace-padded variant of the same pair parses to the
same values. -/
theorem claim_C1_witness :
    parseCoordinates "-24.9947, 32.5969" =
      (some (mkRat (-249947) 10000), some (mkRat 325969 10000)) ∧
    parseCoordinates "  -24.9947°, 32.5969'  " =
      (some (mkRat (-249947) 10000), some (mkRat 325969 10000)) :=
  ⟨claim_C1_parseCoordinates_valid_pair "-24.9947, 32.5969"
      (mkRat (-249947) 10000) (mkRat 325969 10000)
      (by decide) (by decide) (by decide) (by decide),
   claim_C1_parseCoordinates_valid_pair "  -24.9947°, 32.5969'  "
      (mkRat (-249947) 10000) (mkRat 325969 10000)
      (by decide) (by decide) (by decide) (by decide)⟩

/-- Counterexample for C2: the legacy Coordinate Parser of
`src/frontend/src/App.js` (lines 1992-2003), also cited by the claim,
does not validate ranges: on `"200, 300"` — a string whose components
are numeric but out of range, so the claim requires the sentinel
`(0, 0)` — it returns `(200, 300)`. -/
theorem claim_C2_counterexample :
    coordParseOk "200, 300" = false ∧
    parseCoordinatesLegacy "200, 300" = (some (mkRat 200 1), some (mkRat 300 1)) ∧
    parseCoordinatesLegacy "200, 300" ≠ (some 0, some 0) := by
  refine ⟨by decide, by decide, ?_⟩
  decide

/-- C2 (amended): the enhanced Coordinate Parser of the map component
(`src/unnamed/part_000`) returns the invalid sentinel `(0, 0)` for every
input whose components are non-numeric or out of range — including the
empty string standing for an absent value — and never raises (it is a
total function).  The legacy parser in `App.js` returns the sentinel
only for empty input or input with fewer than two comma parts, and
otherwise returns the raw parsed components without validation. -/
theorem claim_C2_invalid_gives_sentinel (s : String)
    (h : coordParseOk s = false) :
    parseCoordinates s = (some 0, some 0) :=
  coord_invalid_sentinel s h

/-- Witness for C2: the end-to-end scenario string `"not a place"` and
the empty string both degrade to the sentinel. -/
theorem claim_C2_witness :
    parseCoordinates "not a place" = (some 0, some 0) ∧
    parseCoordinates "" = (some 0, some 0) :=
  ⟨claim_C2_invalid_gives_sentinel "not a place" (by decide),
   claim_C2_invalid_gives_sentinel "" (by decide)⟩

/-! Filter Engine. -/

/-- The sequential filters of `applyFilters` compose into one pass with
the conjunction of the four conditions. -/
theorem applyFilters_eq_filter (filters : Filters) (l : List Translocation) :
    applyFilters filters l = l.filter (fun t => matchesAllFilters filters t) := by
  by_cases h1 : filters.species = "" <;>
    by_cases h2 : filters.year = "" <;>
      by_cases h3 : filters.transport = "" <;>
        by_cases h4 : filters.special_project = "" <;>
          simp [applyFilters, matchesAllFilters, h1, h2, h3, h4, List.filter_filter]

/-- C7: the Filter Engine returns exactly the records satisfying every
provided filter by exact match (the four filters compose with logical
AND, an empty filter value imposing no constraint), zero filters return
the whole set unchanged, and the output is a sublist of the input, so
the store's insertion order is preserved. -/
theorem claim_C7_filter_engine :
    (∀ filters l, applyFilters filters l = l.filter (fun t => matchesAllFilters filters t)) ∧
    (∀ l, applyFilters noFilters l = l) ∧
    (∀ filters l, (applyFilters filters l).Sublist l) :=
  ⟨applyFilters_eq_filter,
   fun l => by simp [applyFilters, noFilters],
   fun filters l => (applyFilters_eq_filter filters l) ▸ List.filter_sublist l⟩

/-! Map renderer. -/

/-- C10: for every translocation record, if either coordinate string
parses to the sentinel `(0, 0)` the map renderer draws no marker, no
connecting line, and adds no bounds entry for that record — even when
the other endpoint is valid; if both endpoints are valid it draws
exactly two circle markers (source radius 10, destination radius 7) and
one polyline, and pushes exactly two bounds entries. -/
theorem claim_C10_map_render (t : Translocation) :
    ((((parseCoordinates t.source_area.coordinates).1 = some 0 ∧
       (parseCoordinates t.source_area.coordinates).2 = some 0) ∨
      ((parseCoordinates t.recipient_area.coordinates).1 = some 0 ∧
       (parseCoordinates t.recipient_area.coordinates).2 = some 0)) →
      renderTranslocation t = ([], [])) ∧
    (¬((parseCoordinates t.source_area.coordinates).1 = some 0 ∧
       (parseCoordinates t.source_area.coordinates).2 = some 0) →
     ¬((parseCoordinates t.recipient_area.coordinates).1 = some 0 ∧
       (parseCoordinates t.recipient_area.coordinates).2 = some 0) →
      renderTranslocation t =
        ([MapElem.circle (parseCoordinates t.source_area.coordinates) 10,
          MapElem.circle (parseCoordinates t.recipient_area.coordinates) 7,
          MapElem.line (parseCoordinates t.source_area.coordinates)
            (parseCoordinates t.recipient_area.coordinates)],
         [parseCoordinates t.source_area.coordinates,
          parseCoordinates t.recipient_area.coordinates]) ∧
      (renderTranslocation t).1.countP isCircleElem = 2 ∧
      (renderTranslocation t).1.countP isLineElem = 1 ∧
      (renderTranslocation t).2.length = 2) := by
  constructor
  · intro h
    unfold renderTranslocation
    rw [if_pos h]
  · intro hs hd
    have heq : renderTranslocation t =
        ([MapElem.circle (parseCoordinates t.source_area.coordinates) 10,
          MapElem.circle (parseCoordinates t.recipient_area.coordinates) 7,
          MapElem.line (parseCoordinates t.source_area.coordinates)
            (parseCoordinates t.recipient_area.coordinates)],
         [parseCoordinates t.source_area.coordinates,
          parseCoordinates t.recipient_area.coordinates]) := by
      unfold renderTranslocation
      rw [if_neg (not_or.mpr ⟨hs, hd⟩), if_neg (fun hc => hs hc.1)]
    refine ⟨heq, ?_, ?_, ?_⟩ <;> rw [heq] <;> rfl

/-- Witness for C10: the record with one unparseable endpoint is skipped
entirely even though its source is valid, and the fully valid record
produces exactly two circle markers, one polyline and two bounds
entries. -/
theorem claim_C10_witness :
    renderTranslocation mapSampleInvalid = ([], []) ∧
    (renderTranslocation mapSampleValid).1.countP isCircleElem = 2 ∧
    (renderTranslocation mapSampleValid).1.countP isLineElem = 1 ∧
    (renderTranslocation mapSampleValid).2.length = 2 :=
  ⟨(claim_C10_map_render mapSampleInvalid).1 (Or.inr (by decide)),
   ((claim_C10_map_render mapSampleValid).2 (by decide) (by decide)).2.1,
   ((claim_C10_map_render mapSampleValid).2 (by decide) (by decide)).2.2.1,
   ((claim_C10_map_render mapSampleValid).2 (by decide) (by decide)).2.2.2⟩

/-! Species Categorizer. -/

/-- C4: the Species Categorizer is a pure, deterministic function of
the raw species string (it is a Lean function of that string alone):
every string equal, case-insensitively and up to surrounding
whitespace, to a flagship species name gets that species' own category
(and no note); every non-flagship string made only of recognized
plains-game species names gets "Plains Game Species" (and no note);
every other string gets "Other" with the original species text
preserved as the breakdown note for `additional_info`. -/
theorem claim_C4_species_categorizer :
    (∀ s f, f ∈ flagshipSpecies → lowerL (trimL s.data) = lowerL f.data →
      categorizeSpecies s = (f, none)) ∧
    (∀ s, speciesTokens s ≠ [] →
      (∀ tk ∈ speciesTokens s,
        plainsGameSpecies.any (fun p => lowerL p.data == tk) = true) →
      categorizeSpecies s = ("Plains Game Species", none)) ∧
    (∀ s, (∀ f ∈ flagshipSpecies, lowerL (trimL s.data) ≠ lowerL f.data) →
      ¬(speciesTokens s ≠ [] ∧
        (speciesTokens s).all
          (fun tk => plainsGameSpecies.any (fun p => lowerL p.data == tk)) = true) →
      categorizeSpecies s = ("Other", some s)) := by
  refine ⟨?_, ?_, ?_⟩
  · intro s f hf heq
    simp only [flagshipSpecies, List.mem_cons, List.mem_singleton] at hf
    rcases hf with rfl | rfl | rfl | h
    · unfold categorizeSpecies
      rw [heq]
      have hfind : flagshipSpecies.find?
          (fun g => lowerL g.data == lowerL ("Elephant").data) = some "Elephant" := by
        decide
      rw [hfind]
    · unfold categorizeSpecies
      rw [heq]
      have hfind : flagshipSpecies.find?
          (fun g => lowerL g.data == lowerL ("Black Rhino").data) =
            some "Black Rhino" := by decide
      rw [hfind]
    · unfold categorizeSpecies
      rw [heq]
      have hfind : flagshipSpecies.find?
          (fun g => lowerL g.data == lowerL ("White Rhino").data) =
            some "White Rhino" := by decide
      rw [hfind]
    · exact absurd h (List.not_mem_nil f)
  · intro s hne hall
    unfold categorizeSpecies
    cases hfind : flagshipSpecies.find?
        (fun f => lowerL f.data == lowerL (trimL s.data)) with
    | some f =>
        have hmem := List.mem_of_find?_eq_some hfind
        have hpf := List.find?_some hfind
        have heq : lowerL f.data = lowerL (trimL s.data) := eq_of_beq hpf
        exfalso
        simp only [flagshipSpecies, List.mem_cons, List.mem_singleton] at hmem
        have htok := hall
        unfold speciesTokens at htok
        rcases hmem with rfl | rfl | rfl | h
        · rw [← heq] at htok
          exact absurd (htok ("elephant").data (by decide)) (by decide)
        · rw [← heq] at htok
          exact absurd (htok ("black rhino").data (by decide)) (by decide)
        · rw [← heq] at htok
          exact absurd (htok ("white rhino").data (by decide)) (by decide)
        · exact absurd h (List.not_mem_nil f)
    | none =>
        simp only []
        rw [if_pos ⟨hne, List.all_eq_true.mpr hall⟩]
  · intro s hflag hrest
    unfold categorizeSpecies
    have hfind : flagshipSpecies.find?
        (fun f => lowerL f.data == lowerL (trimL s.data)) = none := by
      rw [List.find?_eq_none]
      intro f hf
      simp only [beq_eq_false_iff_ne, ne_eq, Bool.not_eq_true]
      exact fun hc => hflag f hf hc.symm
    rw [hfind]
    simp only []
    rw [if_neg hrest]

/-- Witness for C4: "Elephant" (and its case variant "ELEPHANT") keeps
its own category, a plains-game mix "Impala, Kudu, Zebra" folds into
"Plains Game Species", and an unrecognized string becomes "Other" with
the original text as the breakdown note. -/
theorem claim_C4_witness :
    categorizeSpecies "Elephant" = ("Elephant", none) ∧
    categorizeSpecies "ELEPHANT" = ("Elephant", none) ∧
    categorizeSpecies "Impala, Kudu, Zebra" = ("Plains Game Species", none) ∧
    categorizeSpecies "Pangolin and friends" =
      ("Other", some "Pangolin and friends") :=
  ⟨claim_C4_species_categorizer.1 "Elephant" "Elephant" (by decide) (by decide),
   claim_C4_species_categorizer.1 "ELEPHANT" "Elephant" (by decide) (by decide),
   claim_C4_species_categorizer.2.1 "Impala, Kudu, Zebra" (by decide) (by decide),
   claim_C4_species_categorizer.2.2 "Pangolin and friends" (by decide) (by decide)⟩

/-! Column Normalizer. -/

/-- A successful column search yields an offset index, the header found
there, and the fact that it matches. -/
theorem findColAux_some (p : String → Bool) :
    ∀ (l : List String) (n k : Nat), findColAux p l n = some k →
      ∃ j h, k = n + j ∧ l.get? j = some h ∧ p h = true := by
  intro l
  induction l with
  | nil => intro n k h; exact absurd h (by simp [findColAux])
  | cons a t ih =>
      intro n k h
      unfold findColAux at h
      by_cases hp : p a = true
      · rw [if_pos hp] at h
        refine ⟨0, a, ?_, rfl, hp⟩
        have := Option.some.inj h
        omega
      · rw [if_neg hp] at h
        obtain ⟨j, hh, hkj, hget, hph⟩ := ih (n + 1) k h
        exact ⟨j + 1, hh, by omega, by simpa using hget, hph⟩

/-- The column search succeeds whenever some header matches. -/
theorem findColAux_isSome (p : String → Bool) :
    ∀ (l : List String) (n : Nat), (∃ h ∈ l, p h = true) →
      (findColAux p l n).isSome = true := by
  intro l
  induction l with
  | nil => intro n h; obtain ⟨x, hx, _⟩ := h; exact absurd hx (List.not_mem_nil x)
  | cons a t ih =>
      intro n h
      unfold findColAux
      by_cases hp : p a = true
      · rw [if_pos hp]; rfl
      · rw [if_neg hp]
        obtain ⟨x, hx, hpx⟩ := h
        rcases List.mem_cons.mp hx with rfl | hxt
        · exact absurd hpx hp
        · exact ih (n + 1) ⟨x, hxt, hpx⟩

/-- Core of C9: for every header row that is, after lowercasing, a
permutation of the canonical headers, every logical field is assigned
the column holding the case variant of its canonical header. -/
theorem normalizer_perm_assignment (hs : List String)
    (hperm : (hs.map (fun h => lowerL h.data)).Perm
      (canonicalHeaders.map (fun h => lowerL h.data)))
    (f : ImportField) :
    ∃ i h, findColumn hs f = some i ∧ hs.get? i = some h ∧
      lowerL h.data = lowerL (canonicalHeaderOf f).data := by
  have hcanon1 : ∀ g : ImportField,
      (canonicalHeaders.map (fun h => lowerL h.data)).countP
        (fun l => matchesLower g l) = 1 := by decide
  have hfilter : ∀ g : ImportField,
      (canonicalHeaders.map (fun h => lowerL h.data)).filter
        (fun l => matchesLower g l) = [lowerL (canonicalHeaderOf g).data] := by
    decide
  have hcount : hs.countP (fun h => headerMatchesField f h) = 1 := by
    have h1 : (hs.map (fun h => lowerL h.data)).countP
        (fun l => matchesLower f l) =
          hs.countP (fun h => headerMatchesField f h) :=
      List.countP_map (fun l => matchesLower f l) (fun h => lowerL h.data) hs
    rw [← h1, hperm.countP_eq]
    exact hcanon1 f
  have hpos : 0 < hs.countP (fun h => headerMatchesField f h) := by
    rw [hcount]
    exact Nat.one_pos
  have hex : ∃ h ∈ hs, headerMatchesField f h = true :=
    List.countP_pos_iff.mp hpos
  have hsome := findColAux_isSome (headerMatchesField f) hs 0 hex
  obtain ⟨k, hk⟩ := Option.isSome_iff_exists.mp hsome
  obtain ⟨j, h, hkj, hget, hp⟩ := findColAux_some _ hs 0 k hk
  have hjk : j = k := by omega
  subst hjk
  refine ⟨j, h, hk, hget, ?_⟩
  have hhmem : h ∈ hs := List.get?_mem hget
  have hmem2 : lowerL h.data ∈ (hs.map (fun x => lowerL x.data)).filter
      (fun l => matchesLower f l) :=
    List.mem_filter.mpr ⟨List.mem_map_of_mem _ hhmem, hp⟩
  have hpermf := hperm.filter (fun l => matchesLower f l)
  rw [hfilter f] at hpermf
  simpa using hpermf.mem_iff.mp hmem2

/-- Counterexample for C9: swapping the first two canonical columns is
a permutation of the canonical header row, yet the Column Normalizer
assigns Project Title column 1 instead of column 0 — the
field-to-column-index mapping is not the same. -/
theorem claim_C9_counterexample :
    headersSwapped.Perm canonicalHeaders ∧
    findColumn headersSwapped ImportField.projectTitle = some 1 ∧
    findColumn canonicalHeaders ImportField.projectTitle = some 0 ∧
    findColumn headersSwapped ImportField.projectTitle ≠
      findColumn canonicalHeaders ImportField.projectTitle := by
  refine ⟨by decide, by decide, by decide, by decide⟩

/-- C9 (amended): for every header row that is a permutation and/or
case variant of the canonical headers, the Column Normalizer assigns
every logical field the index of the column that holds the (case
variant of the) same canonical header — the field-to-header assignment,
rather than the raw index mapping, is invariant; on the canonical order
itself the mapping is the identity layout. -/
theorem claim_C9_normalizer_permutation :
    (∀ hs : List String,
      (hs.map (fun h => lowerL h.data)).Perm
        (canonicalHeaders.map (fun h => lowerL h.data)) →
      ∀ f : ImportField, ∃ i h, findColumn hs f = some i ∧
        hs.get? i = some h ∧
        lowerL h.data = lowerL (canonicalHeaderOf f).data) ∧
    (∀ f : ImportField, ∃ i, findColumn canonicalHeaders f = some i ∧
      canonicalHeaders.get? i = some (canonicalHeaderOf f)) := by
  constructor
  · exact normalizer_perm_assignment
  · decide

/-- Witness for C9: on the shuffled, case-varied header row the Species
field is still assigned the column holding a case variant of
"Species". -/
theorem claim_C9_witness :
    ∃ i h, findColumn headersShuffled ImportField.speciesF = some i ∧
      headersShuffled.get? i = some h ∧
      lowerL h.data = lowerL (canonicalHeaderOf ImportField.speciesF).data :=
  claim_C9_normalizer_permutation.1 headersShuffled (by decide)
    ImportField.speciesF

/-! Import Pipeline. -/

/-- Every logical field occurs in the schema list. -/
theorem importField_mem_all : ∀ f : ImportField, f ∈ ImportField.all := by
  decide

/-- C5: an import whose header row leaves a required logical column
unmatched fails fast — for any row set, before any row is processed —
with a diagnostic naming the missing field; conversely every header row
with a required column unmatched is detected; an unmatched field in a
successful normalization reads as the absent value for every row; and
when every required column is matched the import proceeds (unmatched
optional columns are not fatal). -/
theorem claim_C5_required_column_fail_fast :
    (∀ headers rows f, missingRequiredColumn headers = some f →
      f.required = true ∧ findColumn headers f = none ∧
      importRows headers rows =
        Except.error ("Missing required column: " ++ f.displayName)) ∧
    (∀ headers,
      (∃ f : ImportField, f.required = true ∧ findColumn headers f = none) →
      (missingRequiredColumn headers).isSome = true) ∧
    (∀ headers m, normalizeColumns headers = Except.ok m →
      ∀ f, m f = none → ∀ row, cellAt m row f = "") ∧
    (∀ headers rows,
      (∀ f : ImportField, f.required = true →
        (findColumn headers f).isSome = true) →
      importRows headers rows =
        Except.ok (processRows (fun f => findColumn headers f) rows)) := by
  refine ⟨?_, ?_, ?_, ?_⟩
  · intro headers rows f hf
    have hp := List.find?_some hf
    rw [Bool.and_eq_true] at hp
    refine ⟨hp.1, Option.isNone_iff_eq_none.mp hp.2, ?_⟩
    unfold importRows normalizeColumns
    rw [hf]
  · rintro headers ⟨f, hreq, hnone⟩
    apply List.find?_isSome.mpr
    refine ⟨f, importField_mem_all f, ?_⟩
    rw [Bool.and_eq_true]
    exact ⟨hreq, by rw [hnone]; rfl⟩
  · intro headers m _ f hmf row
    unfold cellAt
    rw [hmf]
  · intro headers rows hall
    have hmiss : missingRequiredColumn headers = none := by
      unfold missingRequiredColumn
      rw [List.find?_eq_none]
      intro g _
      intro hcontra
      rw [Bool.and_eq_true] at hcontra
      have h1 := hall g hcontra.1
      rw [Option.isNone_iff_eq_none.mp hcontra.2] at h1
      exact absurd h1 (by simp)
    unfold importRows normalizeColumns
    rw [hmiss]

/-- Witness for C5: dropping the required "Species" column fails the
whole import with the diagnostic naming it, while dropping only the
optional columns does not. -/
theorem claim_C5_witness :
    ImportField.speciesF.required = true ∧
    findColumn headersMissingSpecies ImportField.speciesF = none ∧
    importRows headersMissingSpecies scenarioARows =
      Except.error "Missing required column: Species" ∧
    importRows headersNoOptional [] =
      Except.ok (processRows (fun f => findColumn headersNoOptional f) []) := by
  have h := claim_C5_required_column_fail_fast.1 headersMissingSpecies
    scenarioARows ImportField.speciesF (by decide)
  refine ⟨h.1, h.2.1, ?_,
    claim_C5_required_column_fail_fast.2.2.2 headersNoOptional [] (by decide)⟩
  rw [h.2.2]
  rfl

/-- Bookkeeping of the row loop: totals count the rows, successes count
the valid rows, failures count and carry the reasons of the invalid
rows, and the inserted batch is the valid rows' records in order. -/
theorem processRows_spec (m : ImportField → Option Nat) :
    ∀ (rows : List (List String)) (acc : ImportOutcome),
      (rows.foldl (importStep m) acc).total_rows_processed =
          acc.total_rows_processed + rows.length ∧
      (rows.foldl (importStep m) acc).successful_imports =
          acc.successful_imports +
            rows.countP (fun r => (rowError m r).isNone) ∧
      (rows.foldl (importStep m) acc).failures.length =
          acc.failures.length +
            rows.countP (fun r => (rowError m r).isSome) ∧
      (rows.foldl (importStep m) acc).inserted =
          acc.inserted ++
            (rows.filter (fun r => (rowError m r).isNone)).map
              (fun r => buildRecord m r) ∧
      (∀ pr ∈ (rows.foldl (importStep m) acc).failures,
          pr ∈ acc.failures ∨ ∃ r ∈ rows, rowError m r = some pr.2) := by
  intro rows
  induction rows with
  | nil =>
      intro acc
      exact ⟨by simp, by simp, by simp, by simp, fun pr hpr => Or.inl hpr⟩
  | cons r rs ih =>
      intro acc
      obtain ⟨ih1, ih2, ih3, ih4, ih5⟩ := ih (importStep m acc r)
      rw [List.foldl_cons]
      cases hre : rowError m r with
      | some reason =>
          have hstep : importStep m acc r =
              { acc with
                total_rows_processed := acc.total_rows_processed + 1,
                failures :=
                  acc.failures ++ [(acc.total_rows_processed, reason)] } := by
            unfold importStep
            rw [hre]
          refine ⟨?_, ?_, ?_, ?_, ?_⟩
          · rw [ih1, hstep, List.length_cons]
            simp only []
            omega
          · rw [ih2, hstep, List.countP_cons]
            simp [hre]
          · rw [ih3, hstep, List.countP_cons]
            simp [hre]
            omega
          · rw [ih4, hstep, List.filter_cons]
            simp [hre]
          · intro pr hpr
            rcases ih5 pr hpr with hin | ⟨r', hr', hsome⟩
            · rw [hstep] at hin
              simp only [] at hin
              rcases List.mem_append.mp hin with hin | hin
              · exact Or.inl hin
              · refine Or.inr ⟨r, List.mem_cons_self r rs, ?_⟩
                rw [hre]
                rcases List.mem_singleton.mp hin with rfl
                rfl
            · exact Or.inr ⟨r', List.mem_cons_of_mem r hr', hsome⟩
      | none =>
          have hstep : importStep m acc r =
              { acc with
                total_rows_processed := acc.total_rows_processed + 1,
                successful_imports := acc.successful_imports + 1,
                inserted := acc.inserted ++ [buildRecord m r] } := by
            unfold importStep
            rw [hre]
          refine ⟨?_, ?_, ?_, ?_, ?_⟩
          · rw [ih1, hstep, List.length_cons]
            simp only []
            omega
          · rw [ih2, hstep, List.countP_cons]
            simp [hre]
            omega
          · rw [ih3, hstep, List.countP_cons]
            simp [hre]
          · rw [ih4, hstep, List.filter_cons]
            simp [hre]
          · intro pr hpr
            rcases ih5 pr hpr with hin | ⟨r', hr', hsome⟩
            · rw [hstep] at hin
              exact Or.inl hin
            · exact Or.inr ⟨r', List.mem_cons_of_mem r hr', hsome⟩

/-- Every reason the row validator produces is a non-empty,
human-readable string. -/
theorem rowError_reason_nonempty (m : ImportField → Option Nat)
    (row : List String) (s : String) (h : rowError m row = some s) :
    s ≠ "" := by
  unfold rowError at h
  cases hmr : rowMissingRequired m row with
  | some f =>
      rw [hmr] at h
      simp only [] at h
      injection h with h
      subst h
      cases f <;> decide
  | none =>
      rw [hmr] at h
      simp only [] at h
      cases hy : jsParseIntChars (cellAt m row ImportField.yearF).data with
      | none =>
          rw [hy] at h
          simp only [] at h
          injection h with h
          subst h
          decide
      | some y =>
          rw [hy] at h
          simp only [] at h
          cases hn : jsParseIntChars
              (cellAt m row ImportField.numberF).data with
          | none =>
              rw [hn] at h
              simp only [] at h
              injection h with h
              subst h
              decide
          | some n =>
              rw [hn] at h
              simp only [] at h
              by_cases hle : n ≤ 0
              · rw [if_pos hle] at h
                injection h with h
                subst h
                decide
              · rw [if_neg hle] at h
                exact absurd h (by simp)

/-- A row with a blank required field always fails validation. -/
theorem rowError_isSome_of_missing (m : ImportField → Option Nat)
    (row : List String) (f : ImportField)
    (h : rowMissingRequired m row = some f) :
    (rowError m row).isSome = true := by
  unfold rowError
  rw [h]
  rfl

/-- C3: for every bulk import over a successfully normalized header row
in which exactly `k` rows have a blank required field and every other
row is valid, the pipeline completes without aborting and returns the
outcome with `total_rows_processed` the number of rows,
`successful_imports` that number minus `k`, and exactly `k` per-row
failure entries, each carrying a non-empty human-readable reason. -/
theorem claim_C3_import_partial_failure (headers : List String)
    (rows : List (List String)) (m : ImportField → Option Nat) (k : Nat)
    (hnorm : normalizeColumns headers = Except.ok m)
    (hk : rows.countP (fun r => (rowMissingRequired m r).isSome) = k)
    (hrest : ∀ r ∈ rows, rowMissingRequired m r = none →
      rowError m r = none) :
    importRows headers rows = Except.ok (processRows m rows) ∧
    (processRows m rows).total_rows_processed = rows.length ∧
    (processRows m rows).successful_imports = rows.length - k ∧
    (processRows m rows).failures.length = k ∧
    ∀ pr ∈ (processRows m rows).failures, pr.2 ≠ "" := by
  have hnorm2 : missingRequiredColumn headers = none ∧
      (fun f => findColumn headers f) = m := by
    unfold normalizeColumns at hnorm
    cases hmiss : missingRequiredColumn headers with
    | some g =>
        rw [hmiss] at hnorm
        exact absurd hnorm (by simp)
    | none =>
        rw [hmiss] at hnorm
        exact ⟨rfl, Except.ok.inj hnorm⟩
  obtain ⟨hmiss, hm⟩ := hnorm2
  obtain ⟨p1, p2, p3, p4, p5⟩ := processRows_spec m rows emptyOutcome
  have hcount : rows.countP (fun r => (rowError m r).isSome) = k := by
    rw [← hk]
    apply List.countP_congr
    intro r hr
    constructor
    · intro hsome
      by_contra hns
      have hnone : rowMissingRequired m r = none := by
        cases hx : rowMissingRequired m r with
        | none => rfl
        | some g => exact absurd (by rw [hx]; rfl) hns
      rw [hrest r hr hnone] at hsome
      exact absurd hsome (by simp)
    · intro hsome
      obtain ⟨f, hf⟩ := Option.isSome_iff_exists.mp hsome
      exact rowError_isSome_of_missing m r f hf
  have hsum : ∀ l : List (List String),
      l.countP (fun r => (rowError m r).isNone) +
        l.countP (fun r => (rowError m r).isSome) = l.length := by
    intro l
    induction l with
    | nil => rfl
    | cons a t ih =>
        rw [List.countP_cons, List.countP_cons, List.length_cons]
        cases h : rowError m a <;> simp [h] <;> omega
  refine ⟨?_, ?_, ?_, ?_, ?_⟩
  · unfold importRows normalizeColumns
    rw [hmiss, hm]
  · show (rows.foldl (importStep m) emptyOutcome).total_rows_processed =
      rows.length
    rw [p1]
    simp [emptyOutcome]
  · show (rows.foldl (importStep m) emptyOutcome).successful_imports =
      rows.length - k
    rw [p2]
    have := hsum rows
    simp only [emptyOutcome]
    omega
  · show (rows.foldl (importStep m) emptyOutcome).failures.length = k
    rw [p3, hcount]
    simp [emptyOutcome]
  · intro pr hpr
    rcases p5 pr hpr with hin | ⟨r, _, hsome⟩
    · exact absurd hin (by simp [emptyOutcome])
    · exact rowError_reason_nonempty m r pr.2 hsome

/-- Witness for C3: end-to-end scenario A — three rows against the
canonical headers, one with a blank Species cell, import two, fail
one. -/
theorem claim_C3_witness :
    importRows canonicalHeaders scenarioARows =
      Except.ok (processRows (fun f => findColumn canonicalHeaders f)
        scenarioARows) ∧
    (processRows (fun f => findColumn canonicalHeaders f)
      scenarioARows).total_rows_processed = 3 ∧
    (processRows (fun f => findColumn canonicalHeaders f)
      scenarioARows).successful_imports = 2 ∧
    (processRows (fun f => findColumn canonicalHeaders f)
      scenarioARows).failures.length = 1 := by
  have h := claim_C3_import_partial_failure canonicalHeaders scenarioARows
    (fun f => findColumn canonicalHeaders f) 1 rfl (by decide) (by decide)
  exact ⟨h.1, h.2.1, h.2.2.1, h.2.2.2.1⟩

/-- Pointwise-equal predicates search identically. -/
theorem find?_congr_subst {α : Type} (p q : α → Bool) :
    ∀ l : List α, (∀ a ∈ l, p a = q a) → l.find? p = l.find? q := by
  intro l
  induction l with
  | nil => intro _; rfl
  | cons a t ih =>
      intro h
      simp only [List.find?]
      rw [h a (List.mem_cons_self a t)]
      cases hqa : q a with
      | true => rfl
      | false => exact ih (fun x hx => h x (List.mem_cons_of_mem a hx))

/-- Row validation never reads the two coordinate cells. -/
theorem rowError_ignores_coordinates (m : ImportField → Option Nat)
    (row row' : List String)
    (hc : ∀ f : ImportField, f ≠ ImportField.srcCoords →
      f ≠ ImportField.rcpCoords → cellAt m row f = cellAt m row' f) :
    rowError m row = rowError m row' := by
  have hmr : rowMissingRequired m row = rowMissingRequired m row' := by
    unfold rowMissingRequired
    apply find?_congr_subst
    intro f _
    cases f <;>
      first
        | rfl
        | rw [hc ImportField.projectTitle (by decide) (by decide)]
        | rw [hc ImportField.yearF (by decide) (by decide)]
        | rw [hc ImportField.speciesF (by decide) (by decide)]
        | rw [hc ImportField.numberF (by decide) (by decide)]
  unfold rowError
  rw [hmr, hc ImportField.yearF (by decide) (by decide),
    hc ImportField.numberF (by decide) (by decide)]

/-- C6: a candidate row whose coordinate strings are missing or
unparseable is still stored — validation never reads the coordinate
cells, so no row is rejected solely for a bad coordinate string; the
valid row's record joins the inserted batch with the raw coordinate
text stored as-is, and the bad coordinate merely degrades to the
`(0, 0)` sentinel when parsed downstream. -/
theorem claim_C6_bad_coordinates_still_stored :
    (∀ m rows row, row ∈ rows → rowError m row = none →
      buildRecord m row ∈ (processRows m rows).inserted) ∧
    (∀ m row row',
      (∀ f : ImportField, f ≠ ImportField.srcCoords →
        f ≠ ImportField.rcpCoords → cellAt m row f = cellAt m row' f) →
      rowError m row = rowError m row') ∧
    (∀ m row, (buildRecord m row).source_area.coordinates =
        cellAt m row ImportField.srcCoords ∧
      (buildRecord m row).recipient_area.coordinates =
        cellAt m row ImportField.rcpCoords) ∧
    (∀ s, coordParseOk s = false →
      parseCoordinates s = (some 0, some 0)) := by
  refine ⟨?_, rowError_ignores_coordinates, fun m row => ⟨rfl, rfl⟩,
    coord_invalid_sentinel⟩
  intro m rows row hrow hre
  have h4 := (processRows_spec m rows emptyOutcome).2.2.2.1
  show buildRecord m row ∈
    (rows.foldl (importStep m) emptyOutcome).inserted
  rw [h4]
  refine List.mem_append.mpr (Or.inr ?_)
  exact List.mem_map_of_mem _ (List.mem_filter.mpr ⟨hrow, by rw [hre]; rfl⟩)

/-- Witness for C6: the row with the garbage source coordinate string
is imported, its record keeps the raw text, and the text parses to the
sentinel downstream. -/
theorem claim_C6_witness :
    buildRecord (fun f => findColumn canonicalHeaders f) rowBadCoords ∈
      (processRows (fun f => findColumn canonicalHeaders f)
        [rowBadCoords]).inserted ∧
    (buildRecord (fun f => findColumn canonicalHeaders f)
      rowBadCoords).source_area.coordinates = "not a place" ∧
    parseCoordinates "not a place" = (some 0, some 0) := by
  refine ⟨claim_C6_bad_coordinates_still_stored.1
      (fun f => findColumn canonicalHeaders f) [rowBadCoords] rowBadCoords
      (by decide) (by decide), ?_,
    claim_C6_bad_coordinates_still_stored.2.2.2 "not a place" (by decide)⟩
  rw [(claim_C6_bad_coordinates_still_stored.2.2.1
    (fun f => findColumn canonicalHeaders f) rowBadCoords).1]
  decide

/-! Stats Aggregator and panel ordering. -/

/-- Lookup after one accumulation step. -/
theorem lookupStat_bumpStat (key : String) (n : Nat) :
    ∀ (acc : List (String × SpeciesStat)) (k : String),
      lookupStat (bumpStat acc key n) k =
        if key = k then
          match lookupStat acc k with
          | some st =>
              some { total_animals := st.total_animals + n,
                     total_translocations := st.total_translocations + 1 }
          | none => some { total_animals := n, total_translocations := 1 }
        else lookupStat acc k := by
  intro acc
  induction acc with
  | nil =>
      intro k
      by_cases hk : key = k
      · subst hk
        simp [bumpStat, lookupStat]
      · simp [bumpStat, lookupStat, hk]
  | cons e rest ih =>
      intro k
      obtain ⟨a, st⟩ := e
      by_cases hak : a = key
      · subst hak
        by_cases hk : a = k
        · subst hk
          simp [bumpStat, lookupStat]
        · simp [bumpStat, lookupStat, hk]
      · by_cases hk : a = k
        · subst hk
          have hka : ¬(key = a) := fun hc => hak hc.symm
          simp [bumpStat, lookupStat, hak, hka]
        · simp [bumpStat, lookupStat, hak, hk, ih k]

/-- Head step of the per-category animal total. -/
theorem animalsFor_cons (r : Translocation) (rs : List Translocation)
    (k : String) :
    animalsFor (r :: rs) k =
      (if r.species = k then r.number_of_animals else 0) +
        animalsFor rs k := by
  by_cases h : r.species = k <;>
    simp [animalsFor, List.filter_cons, h]

/-- Head step of the per-category event count. -/
theorem eventsFor_cons (r : Translocation) (rs : List Translocation)
    (k : String) :
    eventsFor (r :: rs) k =
      (if r.species = k then 1 else 0) + eventsFor rs k := by
  by_cases h : r.species = k <;>
    simp [eventsFor, List.filter_cons, h] <;> omega

/-- The aggregation loop computes, for every category key, exactly the
sum of animal counts and the number of events of that category. -/
theorem statsAggregate_lookup :
    ∀ (records : List Translocation) (acc : List (String × SpeciesStat))
      (k : String),
      lookupStat (records.foldl
          (fun a r => bumpStat a r.species r.number_of_animals) acc) k =
        match lookupStat acc k with
        | some st =>
            some { total_animals := st.total_animals + animalsFor records k,
                   total_translocations :=
                     st.total_translocations + eventsFor records k }
        | none =>
            if eventsFor records k = 0 then none
            else some { total_animals := animalsFor records k,
                        total_translocations := eventsFor records k } := by
  intro records
  induction records with
  | nil =>
      intro acc k
      simp only [List.foldl_nil]
      cases h : lookupStat acc k <;> simp [animalsFor, eventsFor, h]
  | cons r rs ih =>
      intro acc k
      simp only [List.foldl_cons]
      rw [ih (bumpStat acc r.species r.number_of_animals) k,
        lookupStat_bumpStat r.species r.number_of_animals acc k,
        animalsFor_cons, eventsFor_cons]
      by_cases hrk : r.species = k
      · simp only [if_pos hrk]
        cases h : lookupStat acc k with
        | some st => simp [Nat.add_assoc]
        | none =>
            have hne : ¬(1 + eventsFor rs k = 0) := by omega
            rw [if_neg hne]
      · simp only [if_neg hrk, Nat.zero_add]

/-- Keys after one accumulation step: unchanged for a seen category,
appended for a new one. -/
theorem bumpStat_keys (key : String) (n : Nat) :
    ∀ acc : List (String × SpeciesStat),
      (bumpStat acc key n).map (fun e => e.1) =
        if key ∈ acc.map (fun e => e.1) then acc.map (fun e => e.1)
        else acc.map (fun e => e.1) ++ [key] := by
  intro acc
  induction acc with
  | nil => simp [bumpStat]
  | cons e rest ih =>
      obtain ⟨a, st⟩ := e
      by_cases hak : a = key
      · subst hak
        simp [bumpStat]
      · have hka : ¬(key = a) := fun hc => hak hc.symm
        by_cases hmem : key ∈ rest.map (fun e => e.1)
        · simp [bumpStat, hak, ih, hmem, hka, List.mem_cons]
        · simp [bumpStat, hak, ih, hmem, hka, List.mem_cons]

/-- The aggregator produces one entry per category: its keys carry no
duplicate. -/
theorem statsAggregate_keys_nodup (records : List Translocation) :
    ((statsAggregate records).map (fun e => e.1)).Nodup := by
  suffices h : ∀ (rs : List Translocation)
      (acc : List (String × SpeciesStat)),
      (acc.map (fun e => e.1)).Nodup →
      ((rs.foldl (fun a r => bumpStat a r.species r.number_of_animals)
          acc).map (fun e => e.1)).Nodup by
    exact h records [] (by simp)
  intro rs
  induction rs with
  | nil => intro acc h; simpa using h
  | cons r t ih =>
      intro acc h
      simp only [List.foldl_cons]
      apply ih
      rw [bumpStat_keys]
      by_cases hmem : r.species ∈ acc.map (fun e => e.1)
      · rw [if_pos hmem]
        exact h
      · rw [if_neg hmem]
        simp [List.nodup_append, h, hmem]

/-- Inserting keeps the multiset of entries. -/
theorem insertStatDesc_perm (e : String × SpeciesStat) :
    ∀ l, (insertStatDesc e l).Perm (e :: l) := by
  intro l
  induction l with
  | nil => exact List.Perm.refl _
  | cons x xs ih =>
      unfold insertStatDesc
      by_cases hx : x.2.total_animals ≤ e.2.total_animals
      · rw [if_pos hx]
      · rw [if_neg hx]
        exact (List.Perm.cons x ih).trans (List.Perm.swap e x xs)

/-- The panel sort permutes its input. -/
theorem sortStatsEntries_perm : ∀ l, (sortStatsEntries l).Perm l := by
  intro l
  induction l with
  | nil => exact List.Perm.refl _
  | cons x xs ih =>
      unfold sortStatsEntries
      exact (insertStatDesc_perm x (sortStatsEntries xs)).trans
        (List.Perm.cons x ih)

/-- Inserting into a descending list keeps it descending. -/
theorem insertStatDesc_sorted (e : String × SpeciesStat) :
    ∀ l, l.Pairwise (fun a b => b.2.total_animals ≤ a.2.total_animals) →
      (insertStatDesc e l).Pairwise
        (fun a b => b.2.total_animals ≤ a.2.total_animals) := by
  intro l
  induction l with
  | nil => intro _; simp [insertStatDesc]
  | cons x xs ih =>
      intro h
      rw [List.pairwise_cons] at h
      obtain ⟨hx, hxs⟩ := h
      unfold insertStatDesc
      by_cases hcmp : x.2.total_animals ≤ e.2.total_animals
      · rw [if_pos hcmp, List.pairwise_cons]
        constructor
        · intro b hb
          rcases List.mem_cons.mp hb with rfl | hb
          · exact hcmp
          · exact le_trans (hx b hb) hcmp
        · rw [List.pairwise_cons]
          exact ⟨hx, hxs⟩
      · rw [if_neg hcmp, List.pairwise_cons]
        constructor
        · intro b hb
          have hmem := (insertStatDesc_perm e xs).mem_iff.mp hb
          rcases List.mem_cons.mp hmem with rfl | hb2
          · omega
          · exact hx b hb2
        · exact ih hxs

/-- The panel sort is descending in `total_animals`. -/
theorem sortStatsEntries_sorted :
    ∀ l, (sortStatsEntries l).Pairwise
      (fun a b => b.2.total_animals ≤ a.2.total_animals) := by
  intro l
  induction l with
  | nil => simp [sortStatsEntries]
  | cons x xs ih =>
      unfold sortStatsEntries
      exact insertStatDesc_sorted x _ ih

/-- Inserting an entry of a given total puts it in front of the other
entries of that total. -/
theorem insertStatDesc_filter_eq (e : String × SpeciesStat) (nv : Nat)
    (he : e.2.total_animals = nv) :
    ∀ l, (insertStatDesc e l).filter (fun x => x.2.total_animals == nv) =
      e :: l.filter (fun x => x.2.total_animals == nv) := by
  intro l
  induction l with
  | nil => simp [insertStatDesc, he]
  | cons x xs ih =>
      unfold insertStatDesc
      by_cases hcmp : x.2.total_animals ≤ e.2.total_animals
      · rw [if_pos hcmp]
        simp [List.filter_cons, he]
      · rw [if_neg hcmp]
        have hxne : ¬(x.2.total_animals = nv) := by omega
        simp [List.filter_cons, hxne, ih]

/-- Inserting an entry of another total leaves a total's entries
untouched. -/
theorem insertStatDesc_filter_ne (e : String × SpeciesStat) (nv : Nat)
    (he : ¬(e.2.total_animals = nv)) :
    ∀ l, (insertStatDesc e l).filter (fun x => x.2.total_animals == nv) =
      l.filter (fun x => x.2.total_animals == nv) := by
  intro l
  induction l with
  | nil => simp [insertStatDesc, he]
  | cons x xs ih =>
      unfold insertStatDesc
      by_cases hcmp : x.2.total_animals ≤ e.2.total_animals
      · rw [if_pos hcmp]
        simp [List.filter_cons, he]
      · rw [if_neg hcmp]
        simp [List.filter_cons, ih]

/-- Stability of the panel sort: within every tie class of
`total_animals` the input order is preserved. -/
theorem sortStatsEntries_stable (nv : Nat) :
    ∀ l, (sortStatsEntries l).filter (fun x => x.2.total_animals == nv) =
      l.filter (fun x => x.2.total_animals == nv) := by
  intro l
  induction l with
  | nil => rfl
  | cons x xs ih =>
      unfold sortStatsEntries
      by_cases hx : x.2.total_animals = nv
      · rw [insertStatDesc_filter_eq x nv hx, ih, List.filter_cons]
        simp [hx]
      · rw [insertStatDesc_filter_ne x nv hx, ih, List.filter_cons]
        simp [hx]

/-- Counterexample for C8: two categories with equal `total_animals`,
first seen in the order Elephant, Black Rhino.  The `StatsPanel` sort
keeps that entry order, so the output is not ordered with ties broken
by category name (which would put Black Rhino first). -/
theorem claim_C8_counterexample :
    sortStatsEntries (statsAggregate tiedRecords) =
      [("Elephant", { total_animals := 5, total_translocations := 1 }),
       ("Black Rhino", { total_animals := 5, total_translocations := 1 })] ∧
    orderedByAnimalsThenName
      (sortStatsEntries (statsAggregate tiedRecords)) = false := by
  exact ⟨by decide, by decide⟩

/-- C8 (amended): the Stats Aggregator lists one entry per category
(no duplicate keys), the entry of category `k` carrying
`total_animals` = the sum of `number_of_animals` over `k`'s records and
`total_translocations` = their count (and no entry when there is no
such record); the `StatsPanel` output is a permutation of those entries
ordered by descending `total_animals`, ties keeping the entry
(first-seen insertion) order — the sort is stable, with no name
comparison; an empty record set yields an empty result. -/
theorem claim_C8_stats_aggregation_and_order :
    (∀ records k,
      lookupStat (statsAggregate records) k =
        if eventsFor records k = 0 then none
        else some { total_animals := animalsFor records k,
                    total_translocations := eventsFor records k }) ∧
    (∀ records, ((statsAggregate records).map (fun e => e.1)).Nodup) ∧
    (∀ entries, (sortStatsEntries entries).Perm entries) ∧
    (∀ entries, (sortStatsEntries entries).Pairwise
      (fun a b => b.2.total_animals ≤ a.2.total_animals)) ∧
    (∀ entries nv,
      (sortStatsEntries entries).filter
          (fun x => x.2.total_animals == nv) =
        entries.filter (fun x => x.2.total_animals == nv)) ∧
    statsAggregate [] = [] ∧ sortStatsEntries [] = [] := by
  refine ⟨?_, statsAggregate_keys_nodup, sortStatsEntries_perm,
    sortStatsEntries_sorted, fun entries nv => sortStatsEntries_stable nv entries,
    rfl, rfl⟩
  intro records k
  have h := statsAggregate_lookup records [] k
  simpa [lookupStat] using h

end CSDashboard
